import Mathlib

/-
Verification of the silero-vad segmentation core (src/silero_vad.c).

The development shallowly embeds the hysteresis state machine of the VAD
iterator: `vad_iterator_init`, `vad_iterator_reset_states`, `vad_predict`
(the post-inference decision logic), and `vad_iterator_process` (the
driving loop with its end-of-stream flush).

Modelling conventions:
- The neural classifier is an external collaborator; its per-window output
  is abstracted as a function `probFn : Nat -> Rat` giving the speech
  probability of each prediction step.  The tensor buffers (`context`,
  `state`, `input_buffer`) feed only the classifier and carry no
  segmentation logic, so they are not part of the embedded state; the
  derived counts (`context_samples`, `effective_window_size`) are kept.
- C `int` / `unsigned int` sample counters are embedded as unbounded `Int`,
  the idealization valid while counters stay below 2^31 (about 37 hours of
  16 kHz audio); `size_t` loop indices are embedded as `Nat`.
- `float` probabilities and thresholds are embedded as `Rat`; the literal
  `0.15f` becomes `15/100`.  `max_speech_samples` may be `INFINITY`
  (from `max_speech_s = INFINITY`), embedded as `Option Rat` with `none`
  for infinity, under which every finite comparison `d > INFINITY` is false.
-/

/- Finalized or in-progress (start, end) sample-index pair. -/
structure timestamp_t where
  start : Int
  «end» : Int
deriving DecidableEq, Repr

/- The segmentation-relevant fields of `vad_iterator_t`.  The growable
`timestamp_vector_t speeches` is a `List`, with `vec_push` as append. -/
structure vad_iterator_t where
  -- Configuration
  sample_rate : Int
  sr_per_ms : Int
  window_size_samples : Int
  effective_window_size : Int
  context_samples : Int
  -- Thresholds
  threshold : Rat
  min_silence_samples : Int
  min_silence_samples_at_max_speech : Int
  min_speech_samples : Int
  max_speech_samples : Option Rat
  speech_pad_samples : Int
  -- Logic State
  triggered : Bool
  temp_end : Int
  current_sample : Int
  prev_end : Int
  next_start : Int
  current_speech : timestamp_t
  speeches : List timestamp_t
deriving DecidableEq, Repr

/- The C comparison `(int)(d) > vad->max_speech_samples` where the right
side is a float that may be INFINITY (`none`). -/
def max_speech_exceeded (d : Int) : Option Rat → Bool
  | none => false
  | some q => decide ((d : Rat) > q)

/- `vad_iterator_reset_states` (silero_vad.c): clears the logic state and
the segment list.  The tensor zeroing has no segmentation-visible effect. -/
def vad_iterator_reset_states (vad : vad_iterator_t) : vad_iterator_t :=
  { vad with
      triggered := false
      temp_end := 0
      current_sample := 0
      prev_end := 0
      next_start := 0
      speeches := []
      current_speech := ⟨-1, -1⟩ }

/- `vad_iterator_init` (silero_vad.c): sample-rate validation and the
derived configuration.  `model_is_16k_only` abstracts
`is_16k_model(model_path)` (a substring test on the model path).
`none` is returned exactly when the C function rejects the configuration;
allocation and ONNX-session failures are environment faults outside the
model.  C integer division truncates toward zero; the validated sample
rates make `sample_rate / 1000` exact, so the rounding convention is
immaterial. -/
def vad_iterator_init (model_is_16k_only : Bool) (sample_rate : Int)
    (window_frame_size_ms : Int) (threshold : Rat)
    (min_silence_ms speech_pad_ms min_speech_ms : Int)
    (max_speech_s : Option Rat) : Option vad_iterator_t :=
  if model_is_16k_only = true ∧ sample_rate ≠ 16000 then none
  else if model_is_16k_only = false ∧ sample_rate ≠ 16000 ∧ sample_rate ≠ 8000 then none
  else
    let context_samples : Int := if sample_rate = 16000 then 64 else 32
    let sr_per_ms := sample_rate / 1000
    let window_size_samples := window_frame_size_ms * sr_per_ms
    let speech_pad_samples := sr_per_ms * speech_pad_ms
    some
      { sample_rate := sample_rate
        sr_per_ms := sr_per_ms
        window_size_samples := window_size_samples
        effective_window_size := window_size_samples + context_samples
        context_samples := context_samples
        threshold := threshold
        min_silence_samples := sr_per_ms * min_silence_ms
        min_silence_samples_at_max_speech := sr_per_ms * 98
        min_speech_samples := sr_per_ms * min_speech_ms
        max_speech_samples := max_speech_s.map
          (fun s => (sample_rate : Rat) * s - (window_size_samples : Rat)
            - 2 * (speech_pad_samples : Rat))
        speech_pad_samples := speech_pad_samples
        triggered := false
        temp_end := 0
        current_sample := 0
        prev_end := 0
        next_start := 0
        current_speech := ⟨-1, -1⟩
        speeches := [] }

/- Branch `speech_prob >= threshold` of `vad_predict`, after the cursor
increment: cancel a pending close, then open a candidate if not triggered. -/
def predict_speech (v : vad_iterator_t) : vad_iterator_t :=
  let v :=
    if v.temp_end ≠ 0 then
      let v := { v with temp_end := 0 }
      if v.next_start < v.prev_end then
        { v with next_start := v.current_sample - v.window_size_samples }
      else v
    else v
  if v.triggered = true then v
  else
    { v with
        triggered := true
        current_speech := { v.current_speech with
          start := v.current_sample - v.window_size_samples } }

/- Branch `triggered && (int)(current_sample - current_speech.start) >
max_speech_samples` of `vad_predict`: force-close on the duration cap. -/
def predict_max_speech (v : vad_iterator_t) : vad_iterator_t :=
  if 0 < v.prev_end then
    let seg : timestamp_t := ⟨v.current_speech.start, v.prev_end⟩
    if v.next_start < v.prev_end then
      { v with
          speeches := v.speeches ++ [seg]
          current_speech := ⟨-1, -1⟩
          triggered := false
          prev_end := 0
          next_start := 0
          temp_end := 0 }
    else
      { v with
          speeches := v.speeches ++ [seg]
          current_speech := ⟨v.next_start, -1⟩
          prev_end := 0
          next_start := 0
          temp_end := 0 }
  else
    { v with
        speeches := v.speeches ++ [⟨v.current_speech.start, v.current_sample⟩]
        current_speech := ⟨-1, -1⟩
        prev_end := 0
        next_start := 0
        temp_end := 0
        triggered := false }

/- Branch `speech_prob < threshold - 0.15f` of `vad_predict`: confident
silence.  `temp_end` marks the first silent window; after enough silence
the candidate is tentatively closed at `temp_end` and pushed only when
longer than `min_speech_samples`. -/
def predict_silence (v : vad_iterator_t) : vad_iterator_t :=
  if v.triggered = true then
    let te := if v.temp_end = 0 then v.current_sample else v.temp_end
    let pe :=
      if v.min_silence_samples_at_max_speech < v.current_sample - te then te
      else v.prev_end
    if v.min_silence_samples ≤ v.current_sample - te then
      if v.min_speech_samples < te - v.current_speech.start then
        { v with
            speeches := v.speeches ++ [⟨v.current_speech.start, te⟩]
            current_speech := ⟨-1, -1⟩
            prev_end := 0
            next_start := 0
            temp_end := 0
            triggered := false }
      else
        { v with
            temp_end := te
            prev_end := pe
            current_speech := { v.current_speech with «end» := te } }
    else
      { v with temp_end := te, prev_end := pe }
  else v

/- `vad_predict` decision logic (silero_vad.c): the cursor advances by one
window, then exactly one branch fires, in the C early-return order.  The
final no-op arm mirrors the C fall-through (reachable there only for a NaN
probability, never for a rational one). -/
def vad_predict (vad : vad_iterator_t) (speech_prob : Rat) : vad_iterator_t :=
  let v := { vad with current_sample := vad.current_sample + vad.window_size_samples }
  if v.threshold ≤ speech_prob then
    predict_speech v
  else if v.triggered = true ∧
      max_speech_exceeded (v.current_sample - v.current_speech.start)
        v.max_speech_samples = true then
    predict_max_speech v
  else if v.threshold - 15/100 ≤ speech_prob ∧ speech_prob < v.threshold then
    v
  else if speech_prob < v.threshold - 15/100 then
    predict_silence v
  else v

/- `n` consecutive prediction steps starting at window index `k`, the
classifier's probability stream abstracted as `probFn`. -/
def vad_predict_steps (probFn : Nat → Rat) : Nat → Nat → vad_iterator_t → vad_iterator_t
  | _, 0, vad => vad
  | k, n + 1, vad => vad_predict_steps probFn (k + 1) n (vad_predict vad (probFn k))

/- The driving loop of `vad_iterator_process`:
`for (j = 0; j < L; j += w) { if (j + w > L) break; vad_predict(...); }`.
`j` is the `size_t` window offset, `k` the window index.  The loop is
embedded with an explicit iteration budget `fuel`; `vad_iterator_process`
supplies `L + 1`, enough for the at most `L / w` iterations whenever
`0 < w` (proved below). -/
def process_loop (probFn : Nat → Rat) (L w : Nat) :
    Nat → Nat → Nat → vad_iterator_t → vad_iterator_t
  | 0, _, _, vad => vad
  | fuel + 1, j, k, vad =>
    if j < L then
      if j + w > L then vad
      else process_loop probFn L w fuel (j + w) (k + 1) (vad_predict vad (probFn k))
    else vad

/- End-of-stream flush at the tail of `vad_iterator_process`: a still-open
candidate is closed at the total sample count and pushed unconditionally. -/
def vad_flush (vad : vad_iterator_t) (audio_length_samples : Nat) : vad_iterator_t :=
  if 0 ≤ vad.current_speech.start then
    { vad with
        speeches := vad.speeches ++
          [⟨vad.current_speech.start, (audio_length_samples : Int)⟩]
        current_speech := ⟨-1, -1⟩
        prev_end := 0
        next_start := 0
        temp_end := 0
        triggered := false }
  else vad

/- `vad_iterator_process` (silero_vad.c): zero-window guard, reset, the
window loop, then the end-of-stream flush. -/
def vad_iterator_process (vad : vad_iterator_t) (probFn : Nat → Rat)
    (audio_length_samples : Nat) : vad_iterator_t :=
  if vad.window_size_samples = 0 then vad
  else
    vad_flush
      (process_loop probFn audio_length_samples vad.window_size_samples.toNat
        (audio_length_samples + 1) 0 0 (vad_iterator_reset_states vad))
      audio_length_samples

/- Segment list in non-decreasing, non-overlapping order: every segment
starts no earlier than the running lower bound `lb` and ends after it
starts, the next segment being bounded by this one's end. -/
def segs_sorted (lb : Int) : List timestamp_t → Prop
  | [] => True
  | s :: rest => lb ≤ s.start ∧ s.start < s.«end» ∧ segs_sorted s.«end» rest

/- End bound of a segment list: the last segment's end, or `lb` if empty. -/
def last_end (lb : Int) : List timestamp_t → Int
  | [] => lb
  | s :: rest => last_end s.«end» rest

/- Invariant holding after the reset and after every prediction step of a
`vad_iterator_process` run with a positive window size. -/
structure VadInv (v : vad_iterator_t) : Prop where
  hw : 0 < v.window_size_samples
  hcs : 0 ≤ v.current_sample
  hcsd : v.window_size_samples ∣ v.current_sample
  htrig : v.triggered = true ↔ 0 ≤ v.current_speech.start
  hstd : v.triggered = true → v.window_size_samples ∣ v.current_speech.start
  hstle : v.triggered = true →
    v.current_speech.start ≤ v.current_sample - v.window_size_samples
  hns0 : 0 ≤ v.next_start
  hnsd : v.window_size_samples ∣ v.next_start
  hnsle : v.next_start = 0 ∨
    v.next_start ≤ v.current_sample - v.window_size_samples
  hte0 : 0 ≤ v.temp_end
  hte : 0 < v.temp_end → v.triggered = true ∧
    v.current_speech.start < v.temp_end ∧ v.temp_end ≤ v.current_sample
  hpe0 : 0 ≤ v.prev_end
  hpe : 0 < v.prev_end → v.triggered = true ∧
    v.current_speech.start < v.prev_end ∧ v.prev_end ≤ v.current_sample
  hsort : segs_sorted 0 v.speeches
  hdvd : ∀ s ∈ v.speeches, v.window_size_samples ∣ s.start
  hlast : last_end 0 v.speeches ≤
    (if v.triggered = true then v.current_speech.start else v.current_sample)

/- The default threshold 0.5, written in the kernel-normal form `mkRat 1 2`
so that concrete runs evaluate by `decide` (the elaborator does not reduce
the `1 / 2` division form). -/
def ratHalf : Rat := mkRat 1 2

/- A concrete engine as produced by
`vad_iterator_init(&vad, model_path, 16000, 32, 0.5f, 100, 30, 250, INFINITY)`,
the default construction in main.c. -/
def demoVad : vad_iterator_t :=
  { sample_rate := 16000, sr_per_ms := 16, window_size_samples := 512
    effective_window_size := 576, context_samples := 64
    threshold := ratHalf, min_silence_samples := 1600
    min_silence_samples_at_max_speech := 1568, min_speech_samples := 4000
    max_speech_samples := none, speech_pad_samples := 480
    triggered := false, temp_end := 0, current_sample := 0
    prev_end := 0, next_start := 0
    current_speech := ⟨-1, -1⟩, speeches := [] }

/- A concrete engine with a small finite duration cap, as produced by
`vad_iterator_init` at 16 kHz, 32 ms windows, threshold 0.5, 100 ms minimum
silence, no padding, 250 ms minimum speech and `max_speech_s = 0.1`
(`max_speech_samples = 16000 * 0.1 - 512 - 0 = 1088`). -/
def maxDemoVad : vad_iterator_t :=
  { sample_rate := 16000, sr_per_ms := 16, window_size_samples := 512
    effective_window_size := 576, context_samples := 64
    threshold := ratHalf, min_silence_samples := 1600
    min_silence_samples_at_max_speech := 1568, min_speech_samples := 4000
    max_speech_samples := some 1088, speech_pad_samples := 0
    triggered := false, temp_end := 0, current_sample := 0
    prev_end := 0, next_start := 0
    current_speech := ⟨-1, -1⟩, speeches := [] }

/- A concrete engine whose window size is zero (as built from
`window_frame_size_ms = 0`). -/
def zeroWinVad : vad_iterator_t :=
  { demoVad with window_size_samples := 0, effective_window_size := 64 }

/- A concrete engine as produced by `vad_iterator_init` at 8000 Hz with the
same remaining defaults. -/
def demo8kVad : vad_iterator_t :=
  { sample_rate := 8000, sr_per_ms := 8, window_size_samples := 256
    effective_window_size := 288, context_samples := 32
    threshold := ratHalf, min_silence_samples := 800
    min_silence_samples_at_max_speech := 784, min_speech_samples := 2000
    max_speech_samples := none, speech_pad_samples := 240
    triggered := false, temp_end := 0, current_sample := 0
    prev_end := 0, next_start := 0
    current_speech := ⟨-1, -1⟩, speeches := [] }

/- A concrete mid-run engine state: a candidate opened at sample 0 is
still held while silence has been pending since `temp_end = 4608`, the
cursor standing at 6144. -/
def silenceDemoVad : vad_iterator_t :=
  { demoVad with
      triggered := true
      current_sample := 6144
      temp_end := 4608
      current_speech := ⟨0, -1⟩ }

/- The value `vad->temp_end` holds inside the confident-silence branch of
`vad_predict` after its opening `if (vad->temp_end == 0) temp_end =
current_sample` update, expressed on the pre-step state (the cursor having
been advanced by one window at the top of `vad_predict`). -/
def tentative_end (v : vad_iterator_t) : Int :=
  if v.temp_end = 0 then v.current_sample + v.window_size_samples else v.temp_end

/- Basic lemmas about `segs_sorted` / `last_end`. -/

theorem segs_sorted_mono {lb lb' : Int} {l : List timestamp_t} (h : lb' ≤ lb)
    (hs : segs_sorted lb l) : segs_sorted lb' l := by
  cases l with
  | nil => trivial
  | cons s rest => exact ⟨le_trans h hs.1, hs.2.1, hs.2.2⟩

theorem last_end_append (lb : Int) (l : List timestamp_t) (s : timestamp_t) :
    last_end lb (l ++ [s]) = s.«end» := by
  induction l generalizing lb with
  | nil => rfl
  | cons t rest ih => exact ih t.«end»

theorem segs_sorted_append {lb : Int} {l : List timestamp_t} {s : timestamp_t}
    (hs : segs_sorted lb l) (h1 : last_end lb l ≤ s.start)
    (h2 : s.start < s.«end») : segs_sorted lb (l ++ [s]) := by
  induction l generalizing lb with
  | nil => exact ⟨h1, h2, trivial⟩
  | cons t rest ih =>
    exact ⟨hs.1, hs.2.1, ih hs.2.2 h1⟩

theorem le_last_end {lb : Int} {l : List timestamp_t} (hs : segs_sorted lb l) :
    lb ≤ last_end lb l := by
  induction l generalizing lb with
  | nil => exact le_refl lb
  | cons t rest ih =>
    exact le_trans (le_trans hs.1 (le_of_lt hs.2.1)) (ih hs.2.2)

theorem start_ge_of_mem {lb : Int} {l : List timestamp_t} {s : timestamp_t}
    (hs : segs_sorted lb l) (hm : s ∈ l) : lb ≤ s.start := by
  induction l generalizing lb with
  | nil => cases hm
  | cons t rest ih =>
    rcases List.mem_cons.1 hm with rfl | hm'
    · exact hs.1
    · exact le_trans (le_trans hs.1 (le_of_lt hs.2.1)) (ih hs.2.2 hm')

theorem start_lt_end_of_mem {lb : Int} {l : List timestamp_t} {s : timestamp_t}
    (hs : segs_sorted lb l) (hm : s ∈ l) : s.start < s.«end» := by
  induction l generalizing lb with
  | nil => cases hm
  | cons t rest ih =>
    rcases List.mem_cons.1 hm with rfl | hm'
    · exact hs.2.1
    · exact ih hs.2.2 hm'

theorem end_le_last_end_of_mem {lb : Int} {l : List timestamp_t} {s : timestamp_t}
    (hs : segs_sorted lb l) (hm : s ∈ l) : s.«end» ≤ last_end lb l := by
  induction l generalizing lb with
  | nil => cases hm
  | cons t rest ih =>
    rcases List.mem_cons.1 hm with rfl | hm'
    · exact le_last_end hs.2.2
    · exact ih hs.2.2 hm'

theorem pairwise_of_segs_sorted {lb : Int} {l : List timestamp_t}
    (hs : segs_sorted lb l) : List.Pairwise (fun a b => a.«end» ≤ b.start) l := by
  induction l generalizing lb with
  | nil => exact List.Pairwise.nil
  | cons t rest ih =>
    exact List.Pairwise.cons (fun s hm => start_ge_of_mem hs.2.2 hm) (ih hs.2.2)

/- The reset state satisfies the invariant whenever the window is positive. -/
theorem VadInv_reset (v : vad_iterator_t) (hw : 0 < v.window_size_samples) :
    VadInv (vad_iterator_reset_states v) := by
  refine ⟨hw, le_refl 0, ⟨0, by simp [vad_iterator_reset_states]⟩, by simp [vad_iterator_reset_states], ?_, ?_,
    le_refl 0, ⟨0, by simp [vad_iterator_reset_states]⟩, Or.inl rfl, le_refl 0, ?_, le_refl 0, ?_, trivial,
    ?_, ?_⟩ <;>
    simp [vad_iterator_reset_states, last_end]

/- `vad_predict` leaves every configuration field unchanged and advances
the cursor by exactly one window. -/

theorem vad_predict_window_size (v : vad_iterator_t) (p : Rat) :
    (vad_predict v p).window_size_samples = v.window_size_samples := by
  simp only [vad_predict, predict_speech, predict_max_speech, predict_silence]
  split_ifs <;> rfl

theorem vad_predict_threshold (v : vad_iterator_t) (p : Rat) :
    (vad_predict v p).threshold = v.threshold := by
  simp only [vad_predict, predict_speech, predict_max_speech, predict_silence]
  split_ifs <;> rfl

theorem vad_predict_current_sample (v : vad_iterator_t) (p : Rat) :
    (vad_predict v p).current_sample = v.current_sample + v.window_size_samples := by
  simp only [vad_predict, predict_speech, predict_max_speech, predict_silence]
  split_ifs <;> rfl

theorem VadInv_incr {v : vad_iterator_t} (h : VadInv v) :
    VadInv { v with current_sample := v.current_sample + v.window_size_samples } := by
  obtain ⟨hw, hcs, hcsd, htrig, hstd, hstle, hns0, hnsd, hnsle, hte0, hte,
    hpe0, hpe, hsort, hdvd, hlast⟩ := h
  refine ⟨hw, by dsimp only; omega, dvd_add hcsd dvd_rfl, htrig, hstd, ?_,
    hns0, hnsd, ?_, hte0, ?_, hpe0, ?_, hsort, hdvd, ?_⟩
  · intro ht; have := hstle ht; dsimp only; omega
  · rcases hnsle with h | h
    · exact Or.inl h
    · right; dsimp only; omega
  · intro ht; obtain ⟨a, b, c⟩ := hte ht; exact ⟨a, b, by dsimp only; omega⟩
  · intro ht; obtain ⟨a, b, c⟩ := hpe ht; exact ⟨a, b, by dsimp only; omega⟩
  · dsimp only
    split_ifs with ht
    · rw [if_pos ht] at hlast; exact hlast
    · rw [if_neg ht] at hlast; omega

theorem VadInv_predict_speech {v : vad_iterator_t} (h : VadInv v) :
    VadInv (predict_speech
      { v with current_sample := v.current_sample + v.window_size_samples }) := by
  have hOrig := h
  obtain ⟨hw, hcs, hcsd, htrig, hstd, hstle, hns0, hnsd, hnsle, hte0, hte,
    hpe0, hpe, hsort, hdvd, hlast⟩ := h
  simp only [predict_speech]
  split_ifs with c1 c2 c3 c4 c5
  · -- temp_end ≠ 0, next_start < prev_end, triggered
    refine ⟨hw, by dsimp only; omega, dvd_add hcsd dvd_rfl, htrig, hstd, ?_,
      by dsimp only; omega, by simpa using hcsd, ?_, le_refl 0, ?_, hpe0, ?_,
      hsort, hdvd, ?_⟩
    · intro ht; have := hstle ht; dsimp only; omega
    · right; dsimp only; omega
    · intro h0; exact (lt_irrefl 0 h0).elim
    · intro h0; obtain ⟨a, b, c⟩ := hpe h0; exact ⟨a, b, by dsimp only; omega⟩
    · have c3' : v.triggered = true := c3
      rw [if_pos c3'] at hlast
      dsimp only
      rw [if_pos c3]
      exact hlast
  · -- temp_end ≠ 0, next_start < prev_end, not triggered: impossible
    exact absurd (hte (by omega)).1 c3
  · -- temp_end ≠ 0, ¬(next_start < prev_end), triggered
    refine ⟨hw, by dsimp only; omega, dvd_add hcsd dvd_rfl, htrig, hstd, ?_,
      hns0, hnsd, ?_, le_refl 0, ?_, hpe0, ?_, hsort, hdvd, ?_⟩
    · intro ht; have := hstle ht; dsimp only; omega
    · rcases hnsle with h | h
      · exact Or.inl h
      · right; dsimp only; omega
    · intro h0; exact (lt_irrefl 0 h0).elim
    · intro h0; obtain ⟨a, b, c⟩ := hpe h0; exact ⟨a, b, by dsimp only; omega⟩
    · have c4' : v.triggered = true := c4
      rw [if_pos c4'] at hlast
      dsimp only
      rw [if_pos c4]
      exact hlast
  · -- temp_end ≠ 0, ¬(next_start < prev_end), not triggered: impossible
    exact absurd (hte (by omega)).1 c4
  · -- temp_end = 0, triggered
    exact VadInv_incr hOrig
  · -- temp_end = 0, not triggered: open a fresh candidate
    refine ⟨hw, by dsimp only; omega, dvd_add hcsd dvd_rfl, ?_, ?_, ?_,
      hns0, hnsd, ?_, hte0, ?_, hpe0, ?_, hsort, hdvd, ?_⟩
    · exact ⟨fun _ => by dsimp only; omega, fun _ => rfl⟩
    · intro _; simpa using hcsd
    · intro _; dsimp only; omega
    · rcases hnsle with h | h
      · exact Or.inl h
      · right; dsimp only; omega
    · intro h0
      have h1 : 0 < v.temp_end := h0
      exact absurd (hte h1).1 (by assumption)
    · intro h0; exact absurd (hpe h0).1 c5
    · have c5' : ¬ v.triggered = true := c5
      rw [if_neg c5'] at hlast
      simpa using hlast

/- Pushing the open candidate closed at `eend` and clearing every marker
(the common tail of the duration-cap close, the silence close and the
end-of-stream flush) preserves the invariant. -/
theorem VadInv_push_close {v : vad_iterator_t} (h : VadInv v)
    (htr : v.triggered = true) (eend : Int)
    (hend1 : v.current_speech.start < eend)
    (hend2 : eend ≤ v.current_sample + v.window_size_samples) :
    VadInv { v with
      current_sample := v.current_sample + v.window_size_samples
      speeches := v.speeches ++ [⟨v.current_speech.start, eend⟩]
      current_speech := ⟨-1, -1⟩
      prev_end := 0
      next_start := 0
      temp_end := 0
      triggered := false } := by
  obtain ⟨hw, hcs, hcsd, htrig, hstd, hstle, hns0, hnsd, hnsle, hte0, hte,
    hpe0, hpe, hsort, hdvd, hlast⟩ := h
  have hlast' : last_end 0 v.speeches ≤ v.current_speech.start := by
    rw [if_pos htr] at hlast; exact hlast
  refine ⟨hw, by dsimp only; omega, dvd_add hcsd dvd_rfl, by simp, ?_, ?_,
    le_refl 0, dvd_zero _, Or.inl rfl, le_refl 0, ?_, le_refl 0, ?_, ?_, ?_, ?_⟩
  · intro ht; exact Bool.noConfusion ht
  · intro ht; exact Bool.noConfusion ht
  · intro h0; exact (lt_irrefl 0 h0).elim
  · intro h0; exact (lt_irrefl 0 h0).elim
  · exact segs_sorted_append hsort hlast' hend1
  · intro s hs
    have hs' : s ∈ v.speeches ++ [(⟨v.current_speech.start, eend⟩ : timestamp_t)] := hs
    rcases List.mem_append.1 hs' with hm | hm
    · exact hdvd s hm
    · have he : s = ⟨v.current_speech.start, eend⟩ := List.mem_singleton.1 hm
      subst he
      exact hstd htr
  · simpa [last_end_append] using hend2

/- A silence step that does not push (markers updated, candidate kept)
preserves the invariant. -/
theorem VadInv_silence_aux {v : vad_iterator_t} (h : VadInv v)
    (htr : v.triggered = true) (te pe e : Int)
    (h1 : v.current_speech.start < te) (h2 : 0 < te)
    (h3 : te ≤ v.current_sample + v.window_size_samples)
    (h4 : 0 < pe → v.current_speech.start < pe ∧
      pe ≤ v.current_sample + v.window_size_samples)
    (h5 : 0 ≤ pe) :
    VadInv { v with
      current_sample := v.current_sample + v.window_size_samples
      temp_end := te
      prev_end := pe
      current_speech := ⟨v.current_speech.start, e⟩ } := by
  obtain ⟨hw, hcs, hcsd, htrig, hstd, hstle, hns0, hnsd, hnsle, hte0, hte,
    hpe0, hpe, hsort, hdvd, hlast⟩ := h
  have hst0 : 0 ≤ v.current_speech.start := htrig.1 htr
  have hstle' := hstle htr
  have hlast' : last_end 0 v.speeches ≤ v.current_speech.start := by
    rw [if_pos htr] at hlast; exact hlast
  refine ⟨hw, by dsimp only; omega, dvd_add hcsd dvd_rfl, ?_, ?_, ?_,
    hns0, hnsd, ?_, by simp; omega, ?_, by simp; omega, ?_, hsort, hdvd, ?_⟩
  · exact ⟨fun _ => by simpa using hst0, fun _ => htr⟩
  · intro _; simpa using hstd htr
  · intro _; simp; omega
  · rcases hnsle with hn | hn
    · exact Or.inl hn
    · right; dsimp only; omega
  · intro h0
    have h0' : 0 < te := by simpa using h0
    exact ⟨htr, by simpa using h1, by simpa using h3⟩
  · intro h0
    have h0' : 0 < pe := by simpa using h0
    exact ⟨htr, by simpa using (h4 h0').1, by simpa using (h4 h0').2⟩
  · simpa [htr] using hlast'

theorem VadInv_predict_max {v : vad_iterator_t} (h : VadInv v)
    (htr : v.triggered = true) :
    VadInv (predict_max_speech
      { v with current_sample := v.current_sample + v.window_size_samples }) := by
  have hOrig := h
  obtain ⟨hw, hcs, hcsd, htrig, hstd, hstle, hns0, hnsd, hnsle, hte0, hte,
    hpe0, hpe, hsort, hdvd, hlast⟩ := h
  have hst0 : 0 ≤ v.current_speech.start := htrig.1 htr
  have hstle' := hstle htr
  have hlast' : last_end 0 v.speeches ≤ v.current_speech.start := by
    rw [if_pos htr] at hlast; exact hlast
  simp only [predict_max_speech]
  split_ifs with c1 c2
  · -- prev_end > 0, next_start < prev_end: close at prev_end, stop triggering
    have c1' : 0 < v.prev_end := c1
    obtain ⟨-, hstpe, hpecs⟩ := hpe c1'
    exact VadInv_push_close hOrig htr v.prev_end hstpe (by omega)
  · -- prev_end > 0, next_start >= prev_end: close at prev_end, reopen at next_start
    have c1' : 0 < v.prev_end := c1
    have c2' : ¬ v.next_start < v.prev_end := c2
    obtain ⟨-, hstpe, hpecs⟩ := hpe c1'
    have hnsle' : v.next_start ≤ v.current_sample - v.window_size_samples := by
      rcases hnsle with hn | hn
      · omega
      · exact hn
    refine ⟨hw, by dsimp only; omega, dvd_add hcsd dvd_rfl, ?_, ?_, ?_,
      le_refl 0, dvd_zero _, Or.inl rfl, le_refl 0, ?_, le_refl 0, ?_, ?_, ?_, ?_⟩
    · exact ⟨fun _ => by simp; omega, fun _ => htr⟩
    · intro _; simpa using hnsd
    · intro _; simp; omega
    · intro h0; exact (lt_irrefl 0 h0).elim
    · intro h0; exact (lt_irrefl 0 h0).elim
    · exact segs_sorted_append hsort hlast' hstpe
    · intro s hs
      have hs' : s ∈ v.speeches ++
          [(⟨v.current_speech.start, v.prev_end⟩ : timestamp_t)] := hs
      rcases List.mem_append.1 hs' with hm | hm
      · exact hdvd s hm
      · have he : s = ⟨v.current_speech.start, v.prev_end⟩ := List.mem_singleton.1 hm
        subst he
        exact hstd htr
    · simp [last_end_append, htr]; omega
  · -- prev_end = 0: close at the current sample
    exact VadInv_push_close hOrig htr (v.current_sample + v.window_size_samples)
      (by omega) (le_refl _)

theorem VadInv_predict_silence {v : vad_iterator_t} (h : VadInv v) :
    VadInv (predict_silence
      { v with current_sample := v.current_sample + v.window_size_samples }) := by
  have hOrig := h
  obtain ⟨hw, hcs, hcsd, htrig, hstd, hstle, hns0, hnsd, hnsle, hte0, hte,
    hpe0, hpe, hsort, hdvd, hlast⟩ := h
  simp only [predict_silence]
  split_ifs with c1 c2 c3 c4 c5 c6 c7 c8 c9 c10
  all_goals try (exact VadInv_incr hOrig)
  all_goals (
    have htr' : v.triggered = true := c1
    have hst0 : 0 ≤ v.current_speech.start := htrig.1 htr'
    have hstle' := hstle htr'
    have hTEor : v.temp_end = 0 ∨ (0 < v.temp_end ∧
        v.current_speech.start < v.temp_end ∧ v.temp_end ≤ v.current_sample) := by
      rcases eq_or_lt_of_le hte0 with he | hl
      · exact Or.inl he.symm
      · exact Or.inr ⟨hl, (hte hl).2.1, (hte hl).2.2⟩
    have hPEor : v.prev_end = 0 ∨ (0 < v.prev_end ∧
        v.current_speech.start < v.prev_end ∧ v.prev_end ≤ v.current_sample) := by
      rcases eq_or_lt_of_le hpe0 with he | hl
      · exact Or.inl he.symm
      · exact Or.inr ⟨hl, (hpe hl).2.1, (hpe hl).2.2⟩
    first
    | (refine VadInv_push_close hOrig htr' _ ?_ ?_ <;> omega)
    | (refine VadInv_silence_aux hOrig htr' _ _ _ ?_ ?_ ?_ (fun h0 => ⟨?_, ?_⟩) ?_ <;>
        omega))

/- One prediction step preserves the invariant. -/
theorem VadInv_predict {v : vad_iterator_t} (p : Rat) (h : VadInv v) :
    VadInv (vad_predict v p) := by
  simp only [vad_predict]
  split_ifs with c1 c2 c3 c4
  · exact VadInv_predict_speech h
  · exact VadInv_predict_max h c2.1
  · exact VadInv_incr h
  · exact VadInv_predict_silence h
  · exact VadInv_incr h

theorem VadInv_steps (probFn : Nat → Rat) (k n : Nat) :
    ∀ {v : vad_iterator_t}, VadInv v → VadInv (vad_predict_steps probFn k n v) := by
  induction n generalizing k with
  | zero => intro v h; exact h
  | succ n ih => intro v h; exact ih (k + 1) (VadInv_predict (probFn k) h)

theorem vad_predict_steps_window (probFn : Nat → Rat) (k n : Nat)
    (v : vad_iterator_t) :
    (vad_predict_steps probFn k n v).window_size_samples = v.window_size_samples := by
  induction n generalizing k v with
  | zero => rfl
  | succ n ih =>
    rw [vad_predict_steps, ih, vad_predict_window_size]

theorem vad_predict_steps_threshold (probFn : Nat → Rat) (k n : Nat)
    (v : vad_iterator_t) :
    (vad_predict_steps probFn k n v).threshold = v.threshold := by
  induction n generalizing k v with
  | zero => rfl
  | succ n ih =>
    rw [vad_predict_steps, ih, vad_predict_threshold]

theorem vad_predict_steps_current_sample (probFn : Nat → Rat) (k n : Nat)
    (v : vad_iterator_t) :
    (vad_predict_steps probFn k n v).current_sample =
      v.current_sample + n * v.window_size_samples := by
  induction n generalizing k v with
  | zero => simp [vad_predict_steps]
  | succ n ih =>
    rw [vad_predict_steps, ih, vad_predict_current_sample, vad_predict_window_size]
    push_cast
    ring

/- The driving loop with sufficient fuel performs exactly `(L - j) / w`
prediction steps on the consecutive windows. -/
theorem process_loop_eq (probFn : Nat → Rat) (L w : Nat) (hw : 0 < w) :
    ∀ fuel j k v, (L - j) / w < fuel →
      process_loop probFn L w fuel j k v =
        vad_predict_steps probFn k ((L - j) / w) v := by
  intro fuel
  induction fuel with
  | zero => intro j k v h; exact absurd h (Nat.not_lt_zero _)
  | succ fuel ih =>
    intro j k v h
    simp only [process_loop]
    split_ifs with h1 h2
    · have h0 : (L - j) / w = 0 := Nat.div_eq_of_lt (by omega)
      rw [h0]
      rfl
    · have hsub : L - j = (L - (j + w)) + w := by omega
      have hdiv : (L - j) / w = (L - (j + w)) / w + 1 := by
        rw [hsub, Nat.add_div_right _ hw]
      rw [hdiv, ih (j + w) (k + 1) (vad_predict v (probFn k)) (by omega)]
      rfl
    · have h0 : (L - j) / w = 0 := by
        have hj : L - j = 0 := by omega
        rw [hj, Nat.zero_div]
      rw [h0]
      rfl

/- For a positive window, `vad_iterator_process` is the end-of-stream flush
after exactly `L / window_size_samples` prediction steps from the reset
state. -/
theorem vad_iterator_process_eq (v : vad_iterator_t) (probFn : Nat → Rat)
    (L : Nat) (hw : 0 < v.window_size_samples) :
    vad_iterator_process v probFn L =
      vad_flush
        (vad_predict_steps probFn 0 (L / v.window_size_samples.toNat)
          (vad_iterator_reset_states v)) L := by
  have hw0 : ¬ v.window_size_samples = 0 := by omega
  have hwn : 0 < v.window_size_samples.toNat := by omega
  rw [vad_iterator_process, if_neg hw0,
    process_loop_eq probFn L v.window_size_samples.toNat hwn (L + 1) 0 0
      (vad_iterator_reset_states v)
      (by rw [Nat.sub_zero]; exact Nat.lt_succ_of_le (Nat.div_le_self _ _)),
    Nat.sub_zero]

/- After the whole run (steps plus flush) the emitted list is sorted and
non-overlapping, every start is a non-negative multiple of the window
size, and every end is at most the total sample count. -/
theorem process_speeches_ok (v : vad_iterator_t) (probFn : Nat → Rat) (L : Nat)
    (hw : 0 < v.window_size_samples) :
    segs_sorted 0 (vad_iterator_process v probFn L).speeches ∧
    (∀ s ∈ (vad_iterator_process v probFn L).speeches,
      v.window_size_samples ∣ s.start) ∧
    (∀ s ∈ (vad_iterator_process v probFn L).speeches, s.«end» ≤ (L : Int)) := by
  rw [vad_iterator_process_eq v probFn L hw]
  set n := L / v.window_size_samples.toNat with hn
  set mid := vad_predict_steps probFn 0 n (vad_iterator_reset_states v) with hmid
  have hInvMid : VadInv mid := by
    rw [hmid]
    exact VadInv_steps probFn 0 n (VadInv_reset v hw)
  obtain ⟨hw', hcs, hcsd, htrig, hstd, hstle, hns0, hnsd, hnsle, hte0, hte,
    hpe0, hpe, hsort, hdvd, hlast⟩ := hInvMid
  have hwmid : mid.window_size_samples = v.window_size_samples := by
    rw [hmid, vad_predict_steps_window]
    simp [vad_iterator_reset_states]
  have hcs_val : mid.current_sample = n * v.window_size_samples := by
    rw [hmid, vad_predict_steps_current_sample]
    simp [vad_iterator_reset_states]
  have hcsL : mid.current_sample ≤ (L : Int) := by
    rw [hcs_val]
    have h1 : (n * v.window_size_samples.toNat : Nat) ≤ L := Nat.div_mul_le_self L _
    have h2 : ((n * v.window_size_samples.toNat : Nat) : Int) ≤ (L : Int) := by
      exact_mod_cast h1
    have h3 : ((v.window_size_samples.toNat : Int)) = v.window_size_samples :=
      Int.toNat_of_nonneg (le_of_lt hw)
    rw [Nat.cast_mul, h3] at h2
    exact h2
  rw [vad_flush]
  split_ifs with hst
  · -- flush pushes the open candidate closed at L
    have htr : mid.triggered = true := htrig.2 hst
    have hstle' := hstle htr
    have hlast' : last_end 0 mid.speeches ≤ mid.current_speech.start := by
      rw [if_pos htr] at hlast; exact hlast
    have hstL : mid.current_speech.start < (L : Int) := by
      rw [hwmid] at hstle'
      omega
    refine ⟨?_, ?_, ?_⟩
    · exact segs_sorted_append hsort hlast' hstL
    · intro s hs
      have hs' : s ∈ mid.speeches ++
          [(⟨mid.current_speech.start, (L : Int)⟩ : timestamp_t)] := hs
      rcases List.mem_append.1 hs' with hm | hm
      · have := hdvd s hm
        rwa [hwmid] at this
      · have he : s = ⟨mid.current_speech.start, (L : Int)⟩ := List.mem_singleton.1 hm
        subst he
        have := hstd htr
        rwa [hwmid] at this
    · intro s hs
      have hs' : s ∈ mid.speeches ++
          [(⟨mid.current_speech.start, (L : Int)⟩ : timestamp_t)] := hs
      rcases List.mem_append.1 hs' with hm | hm
      · have h1 := end_le_last_end_of_mem hsort hm
        have h2 : mid.current_speech.start ≤ (L : Int) := le_of_lt hstL
        omega
      · have he : s = ⟨mid.current_speech.start, (L : Int)⟩ := List.mem_singleton.1 hm
        subst he
        exact le_refl _
  · -- no open candidate: the list is exactly the steps' list
    have htr : mid.triggered = false := by
      rcases Bool.eq_false_or_eq_true mid.triggered with hb | hb
      · exact absurd (htrig.1 hb) hst
      · exact hb
    have hlast' : last_end 0 mid.speeches ≤ mid.current_sample := by
      rw [if_neg (by rw [htr]; exact Bool.false_ne_true)] at hlast
      exact hlast
    refine ⟨hsort, ?_, ?_⟩
    · intro s hs
      have := hdvd s hs
      rwa [hwmid] at this
    · intro s hs
      have h1 := end_le_last_end_of_mem hsort hs
      omega

/- A step whose probability reaches the threshold pushes nothing and, when
already triggered, leaves the candidate and the trigger untouched. -/
theorem vad_predict_high {v : vad_iterator_t} (p : Rat) (hp : v.threshold ≤ p)
    (htr : v.triggered = true) :
    (vad_predict v p).speeches = v.speeches ∧
    (vad_predict v p).current_speech = v.current_speech ∧
    (vad_predict v p).triggered = true := by
  simp only [vad_predict, if_pos hp, predict_speech]
  split_ifs <;>
    first
      | exact ⟨rfl, rfl, htr⟩
      | exact absurd htr (by assumption)

/- A step at or above threshold from an untriggered state with no pending
close opens a candidate at the window's start. -/
theorem vad_predict_high_open {v : vad_iterator_t} (p : Rat)
    (hp : v.threshold ≤ p) (htr : v.triggered = false) (hte : v.temp_end = 0) :
    (vad_predict v p).speeches = v.speeches ∧
    (vad_predict v p).current_speech.start = v.current_sample ∧
    (vad_predict v p).triggered = true := by
  simp only [vad_predict, if_pos hp, predict_speech]
  split_ifs <;>
    first
      | exact ⟨rfl, by simp, rfl⟩
      | exact absurd (by assumption : v.temp_end ≠ 0) (by simpa using hte)
      | exact absurd (by assumption : v.triggered = true) (by simp [htr])

theorem vad_predict_steps_high (probFn : Nat → Rat) (k n : Nat) :
    ∀ {v : vad_iterator_t}, (∀ i, v.threshold ≤ probFn i) → v.triggered = true →
      (vad_predict_steps probFn k n v).speeches = v.speeches ∧
      (vad_predict_steps probFn k n v).current_speech = v.current_speech ∧
      (vad_predict_steps probFn k n v).triggered = true := by
  induction n generalizing k with
  | zero => intro v _ htr; exact ⟨rfl, rfl, htr⟩
  | succ n ih =>
    intro v hp htr
    obtain ⟨h1, h2, h3⟩ := vad_predict_high (probFn k) (hp k) htr
    have hthr : (vad_predict v (probFn k)).threshold = v.threshold :=
      vad_predict_threshold v _
    obtain ⟨g1, g2, g3⟩ := ih (k + 1) (fun i => by rw [hthr]; exact hp i) h3
    refine ⟨?_, ?_, ?_⟩
    · rw [vad_predict_steps, g1, h1]
    · rw [vad_predict_steps, g2, h2]
    · rw [vad_predict_steps]; exact g3

/- With every window's probability at or above threshold, the steps of a
run push nothing, the trigger is set by the first window and the candidate
opened at sample 0 stays open. -/
theorem steps_all_high_reset (probFn : Nat → Rat) (n : Nat)
    {v : vad_iterator_t} (hp : ∀ i, v.threshold ≤ probFn i) (hn : 1 ≤ n) :
    (vad_predict_steps probFn 0 n (vad_iterator_reset_states v)).speeches = [] ∧
    (vad_predict_steps probFn 0 n
      (vad_iterator_reset_states v)).current_speech.start = 0 ∧
    (vad_predict_steps probFn 0 n (vad_iterator_reset_states v)).triggered = true := by
  obtain ⟨m, rfl⟩ : ∃ m, n = m + 1 := ⟨n - 1, by omega⟩
  have hpr : (vad_iterator_reset_states v).threshold ≤ probFn 0 := hp 0
  obtain ⟨h1, h2, h3⟩ :=
    vad_predict_high_open (v := vad_iterator_reset_states v) (probFn 0) hpr rfl rfl
  have hthr : (vad_predict (vad_iterator_reset_states v) (probFn 0)).threshold =
      v.threshold := vad_predict_threshold _ _
  obtain ⟨g1, g2, g3⟩ := vad_predict_steps_high probFn 1 m
    (v := vad_predict (vad_iterator_reset_states v) (probFn 0))
    (fun i => by rw [hthr]; exact hp i) h3
  refine ⟨?_, ?_, ?_⟩
  · rw [vad_predict_steps, g1, h1]; rfl
  · rw [vad_predict_steps, g2, h2]; rfl
  · rw [vad_predict_steps]; exact g3

/- With every window at or above threshold and at least one full window of
input, the run emits exactly the single flush segment `[0, L)`. -/
theorem process_all_high (v : vad_iterator_t) (probFn : Nat → Rat) (L : Nat)
    (hw : 0 < v.window_size_samples) (hp : ∀ i, v.threshold ≤ probFn i)
    (hL : v.window_size_samples.toNat ≤ L) :
    (vad_iterator_process v probFn L).speeches = [⟨0, (L : Int)⟩] := by
  rw [vad_iterator_process_eq v probFn L hw]
  have hn1 : 1 ≤ L / v.window_size_samples.toNat :=
    (Nat.one_le_div_iff (by omega)).2 hL
  obtain ⟨h1, h2, h3⟩ := steps_all_high_reset probFn _ hp hn1
  simp [vad_flush, h1, h2]

/- The steps consult the probability stream only at the window indices
they execute. -/
theorem vad_predict_steps_congr (probFn probFn' : Nat → Rat) (k n : Nat) :
    ∀ {v : vad_iterator_t},
      (∀ i, k ≤ i → i < k + n → probFn i = probFn' i) →
      vad_predict_steps probFn k n v = vad_predict_steps probFn' k n v := by
  induction n generalizing k with
  | zero => intro v _; rfl
  | succ n ih =>
    intro v h
    rw [vad_predict_steps, vad_predict_steps, h k (le_refl k) (by omega),
      ih (k + 1) (fun i h1 h2 => h i (by omega) (by omega))]

/- `speech_pad_samples` is never read by the step logic: every operation
commutes with overwriting it. -/
theorem predict_speech_pad (v : vad_iterator_t) (x : Int) :
    predict_speech { v with speech_pad_samples := x } =
      { predict_speech v with speech_pad_samples := x } := by
  simp only [predict_speech, apply_ite vad_iterator_t.triggered, ite_self]
  split_ifs <;> rfl

theorem predict_max_speech_pad (v : vad_iterator_t) (x : Int) :
    predict_max_speech { v with speech_pad_samples := x } =
      { predict_max_speech v with speech_pad_samples := x } := by
  simp only [predict_max_speech]
  split_ifs <;> rfl

theorem predict_silence_pad (v : vad_iterator_t) (x : Int) :
    predict_silence { v with speech_pad_samples := x } =
      { predict_silence v with speech_pad_samples := x } := by
  simp only [predict_silence]
  split_ifs <;> rfl

theorem vad_predict_pad (v : vad_iterator_t) (x : Int) (p : Rat) :
    vad_predict { v with speech_pad_samples := x } p =
      { vad_predict v p with speech_pad_samples := x } := by
  simp only [vad_predict]
  split_ifs with h1 h2 h3 h4
  · exact predict_speech_pad
      { v with current_sample := v.current_sample + v.window_size_samples } x
  · exact predict_max_speech_pad
      { v with current_sample := v.current_sample + v.window_size_samples } x
  · rfl
  · exact predict_silence_pad
      { v with current_sample := v.current_sample + v.window_size_samples } x
  · rfl

theorem process_loop_pad (probFn : Nat → Rat) (L w : Nat) :
    ∀ fuel j k (v : vad_iterator_t) (x : Int),
      process_loop probFn L w fuel j k { v with speech_pad_samples := x } =
        { process_loop probFn L w fuel j k v with speech_pad_samples := x } := by
  intro fuel
  induction fuel with
  | zero => intro j k v x; rfl
  | succ fuel ih =>
    intro j k v x
    simp only [process_loop]
    split_ifs with h1 h2
    · rfl
    · rw [vad_predict_pad, ih]
    · rfl

theorem vad_flush_pad (v : vad_iterator_t) (x : Int) (L : Nat) :
    vad_flush { v with speech_pad_samples := x } L =
      { vad_flush v L with speech_pad_samples := x } := by
  simp only [vad_flush]
  split_ifs <;> rfl

theorem vad_iterator_process_pad (v : vad_iterator_t) (x : Int)
    (probFn : Nat → Rat) (L : Nat) :
    vad_iterator_process { v with speech_pad_samples := x } probFn L =
      { vad_iterator_process v probFn L with speech_pad_samples := x } := by
  simp only [vad_iterator_process]
  split_ifs with h1
  · rfl
  · have hr : vad_iterator_reset_states { v with speech_pad_samples := x } =
        { vad_iterator_reset_states v with speech_pad_samples := x } := rfl
    rw [hr, process_loop_pad, vad_flush_pad]

/- `context_samples` is computed once at `vad_iterator_init` and never
written again by any operation. -/
theorem vad_predict_context (v : vad_iterator_t) (p : Rat) :
    (vad_predict v p).context_samples = v.context_samples := by
  simp only [vad_predict, predict_speech, predict_max_speech, predict_silence]
  split_ifs <;> rfl

theorem vad_flush_context (v : vad_iterator_t) (L : Nat) :
    (vad_flush v L).context_samples = v.context_samples := by
  simp only [vad_flush]
  split_ifs <;> rfl

theorem process_loop_context (probFn : Nat → Rat) (L w : Nat) :
    ∀ fuel j k (v : vad_iterator_t),
      (process_loop probFn L w fuel j k v).context_samples = v.context_samples := by
  intro fuel
  induction fuel with
  | zero => intro j k v; rfl
  | succ fuel ih =>
    intro j k v
    simp only [process_loop]
    split_ifs with h1 h2
    · rfl
    · rw [ih, vad_predict_context]
    · rfl

theorem vad_iterator_process_context (v : vad_iterator_t) (probFn : Nat → Rat)
    (L : Nat) :
    (vad_iterator_process v probFn L).context_samples = v.context_samples := by
  simp only [vad_iterator_process]
  split_ifs with h1
  · rfl
  · rw [vad_flush_context, process_loop_context]
    rfl

theorem pairwise_starts_of_segs_sorted {lb : Int} {l : List timestamp_t}
    (hs : segs_sorted lb l) :
    List.Pairwise (fun a b => a.start ≤ b.start) l := by
  induction l generalizing lb with
  | nil => exact List.Pairwise.nil
  | cons t rest ih =>
    refine List.Pairwise.cons (fun s hm => ?_) (ih hs.2.2)
    have h1 := start_ge_of_mem hs.2.2 hm
    have h2 := hs.2.1
    omega

/-- C1: for every configuration with a positive window size and every
probability stream in [0,1], the segments emitted by a `process` run
(flush included) all satisfy `start < end`, appear in non-decreasing
`start` order, and no two of them overlap (each earlier segment ends at or
before each later one starts). -/
theorem vad_segments_wellformed (v : vad_iterator_t) (probFn : Nat → Rat)
    (L : Nat) (hw : 0 < v.window_size_samples)
    (_hp : ∀ i, 0 ≤ probFn i ∧ probFn i ≤ 1) :
    (∀ s ∈ (vad_iterator_process v probFn L).speeches, s.start < s.«end») ∧
    List.Pairwise (fun a b => a.start ≤ b.start)
      (vad_iterator_process v probFn L).speeches ∧
    List.Pairwise (fun a b => a.«end» ≤ b.start)
      (vad_iterator_process v probFn L).speeches := by
  obtain ⟨hs, -, -⟩ := process_speeches_ok v probFn L hw
  exact ⟨fun s hm => start_lt_end_of_mem hs hm,
    pairwise_starts_of_segs_sorted hs, pairwise_of_segs_sorted hs⟩

/-- C2 (amended): with the probability at or above threshold for every
window, the duration-cap branch is unreachable (it is tested only after the
`speech_prob >= threshold` early return), so no forced boundary is emitted
during the windows; the single candidate opened at sample 0 remains open
until the end-of-stream flush closes it at the total sample count. -/
theorem sustained_speech_no_forced_boundary (v : vad_iterator_t)
    (probFn : Nat → Rat) (L : Nat) (hw : 0 < v.window_size_samples)
    (hp : ∀ i, v.threshold ≤ probFn i)
    (hL : v.window_size_samples.toNat ≤ L) :
    (vad_predict_steps probFn 0 (L / v.window_size_samples.toNat)
      (vad_iterator_reset_states v)).speeches = [] ∧
    (vad_iterator_process v probFn L).speeches = [⟨0, (L : Int)⟩] := by
  refine ⟨?_, process_all_high v probFn L hw hp hL⟩
  exact (steps_all_high_reset probFn _ hp
    ((Nat.one_le_div_iff (by omega)).2 hL)).1

/-- C4: N full windows all at or above threshold, with the total length
at least `min_speech_samples`, yield exactly the single flush segment
`[0, N * window_size_samples)`; the prediction steps themselves push
nothing. -/
theorem all_speech_single_flush_segment (v : vad_iterator_t)
    (probFn : Nat → Rat) (N : Nat) (hw : 0 < v.window_size_samples)
    (hN : 1 ≤ N) (hp : ∀ i, v.threshold ≤ probFn i)
    (_hmin : v.min_speech_samples ≤ (N : Int) * v.window_size_samples) :
    (vad_iterator_process v probFn (N * v.window_size_samples.toNat)).speeches =
      [⟨0, (N : Int) * v.window_size_samples⟩] ∧
    (vad_predict_steps probFn 0 N (vad_iterator_reset_states v)).speeches = [] := by
  have hL : v.window_size_samples.toNat ≤ N * v.window_size_samples.toNat :=
    Nat.le_mul_of_pos_left _ hN
  have h1 := process_all_high v probFn (N * v.window_size_samples.toNat) hw hp hL
  constructor
  · rw [h1]
    have hc : ((N * v.window_size_samples.toNat : Nat) : Int) =
        (N : Int) * v.window_size_samples := by
      push_cast
      rw [Int.toNat_of_nonneg (le_of_lt hw)]
    rw [hc]
  · exact (steps_all_high_reset probFn N hp hN).1

/-- C5: with a positive window size, `process` is the end-of-stream flush
after exactly `L / window_size_samples` prediction steps on the
consecutive windows; the trailing partial window is dropped, and the
output never consults the probability stream beyond those steps. -/
theorem process_steps_count_and_tail_drop (v : vad_iterator_t)
    (probFn : Nat → Rat) (L : Nat) (hw : 0 < v.window_size_samples) :
    vad_iterator_process v probFn L =
      vad_flush
        (vad_predict_steps probFn 0 (L / v.window_size_samples.toNat)
          (vad_iterator_reset_states v)) L ∧
    ∀ probFn' : Nat → Rat,
      (∀ k, k < L / v.window_size_samples.toNat → probFn k = probFn' k) →
      vad_iterator_process v probFn L = vad_iterator_process v probFn' L := by
  refine ⟨vad_iterator_process_eq v probFn L hw, ?_⟩
  intro probFn' hagree
  rw [vad_iterator_process_eq v probFn L hw,
    vad_iterator_process_eq v probFn' L hw,
    vad_predict_steps_congr probFn probFn' 0 _
      (fun i h1 h2 => hagree i (by omega))]

/-- C6: a `process` call on an engine whose `window_size_samples` is zero
returns at call entry: the state is unchanged, no prediction step runs and
no segment is emitted. -/
theorem zero_window_process_noop (v : vad_iterator_t) (probFn : Nat → Rat)
    (L : Nat) (h : v.window_size_samples = 0) :
    vad_iterator_process v probFn L = v ∧
    (vad_iterator_process v probFn L).speeches = v.speeches := by
  have h1 : vad_iterator_process v probFn L = v := by
    rw [vad_iterator_process, if_pos h]
  exact ⟨h1, by rw [h1]⟩

/-- C9: throughout a run (after the reset and after each prediction step),
`triggered` holds exactly when the open candidate's start is non-negative,
so the end-of-stream flush condition `current_speech.start >= 0` fires
exactly when a candidate is open. -/
theorem triggered_iff_candidate_open (v : vad_iterator_t)
    (probFn : Nat → Rat) (n : Nat) (hw : 0 < v.window_size_samples) :
    ((vad_predict_steps probFn 0 n (vad_iterator_reset_states v)).triggered = true ↔
      0 ≤ (vad_predict_steps probFn 0 n
        (vad_iterator_reset_states v)).current_speech.start) :=
  (VadInv_steps probFn 0 n (VadInv_reset v hw)).htrig

/-- C10: every emitted segment lies within the input: its start is a
non-negative multiple of the window size and its end is at most the total
sample count. -/
theorem vad_segments_within_input (v : vad_iterator_t) (probFn : Nat → Rat)
    (L : Nat) (hw : 0 < v.window_size_samples) :
    ∀ s ∈ (vad_iterator_process v probFn L).speeches,
      0 ≤ s.start ∧ v.window_size_samples ∣ s.start ∧ s.«end» ≤ (L : Int) := by
  obtain ⟨hs, hd, he⟩ := process_speeches_ok v probFn L hw
  exact fun s hm => ⟨start_ge_of_mem hs hm, hd s hm, he s hm⟩

/-- C3: in the confident-silence branch (probability below
`threshold - 0.15`) with `triggered` set, the duration cap not hit, and
the silence lasting at least `min_silence_samples`, the candidate is
tentatively closed at `temp_end`: if its duration exceeds
`min_speech_samples` the segment is pushed, `current_speech` reset to
`(-1,-1)`, `prev_end`/`next_start`/`temp_end` cleared and `triggered`
dropped; otherwise nothing is pushed and both `triggered` and
`current_speech.start` are left unchanged. -/
theorem silence_close_push_or_keep (v : vad_iterator_t) (p : Rat)
    (htr : v.triggered = true)
    (hp : p < v.threshold - 15/100)
    (hmx : max_speech_exceeded
      (v.current_sample + v.window_size_samples - v.current_speech.start)
      v.max_speech_samples = false)
    (hsil : v.min_silence_samples ≤
      v.current_sample + v.window_size_samples - tentative_end v) :
    (v.min_speech_samples < tentative_end v - v.current_speech.start →
      vad_predict v p = { v with
        current_sample := v.current_sample + v.window_size_samples
        speeches := v.speeches ++ [⟨v.current_speech.start, tentative_end v⟩]
        current_speech := ⟨-1, -1⟩
        prev_end := 0
        next_start := 0
        temp_end := 0
        triggered := false }) ∧
    (¬ v.min_speech_samples < tentative_end v - v.current_speech.start →
      (vad_predict v p).speeches = v.speeches ∧
      (vad_predict v p).triggered = true ∧
      (vad_predict v p).current_speech.start = v.current_speech.start) := by
  have h1 : ¬ v.threshold ≤ p := by
    intro hc
    have h15 : (0 : Rat) < 15/100 := by norm_num
    linarith
  have h2 : ¬ (v.triggered = true ∧ max_speech_exceeded
      (v.current_sample + v.window_size_samples - v.current_speech.start)
      v.max_speech_samples = true) := by
    rintro ⟨-, hx⟩
    rw [hmx] at hx
    exact Bool.noConfusion hx
  have h3 : ¬ (v.threshold - 15/100 ≤ p ∧ p < v.threshold) := by
    rintro ⟨hx, -⟩
    linarith
  have hstep : vad_predict v p = predict_silence
      { v with current_sample := v.current_sample + v.window_size_samples } := by
    simp only [vad_predict]
    rw [if_neg h1, if_neg h2, if_neg h3, if_pos hp]
  rw [hstep]
  simp only [predict_silence, if_pos htr]
  rw [show (if ({ v with current_sample :=
        v.current_sample + v.window_size_samples } : vad_iterator_t).temp_end = 0
      then ({ v with current_sample :=
        v.current_sample + v.window_size_samples } : vad_iterator_t).current_sample
      else ({ v with current_sample :=
        v.current_sample + v.window_size_samples } : vad_iterator_t).temp_end) =
      tentative_end v from rfl]
  rw [if_pos (show ({ v with current_sample :=
      v.current_sample + v.window_size_samples } : vad_iterator_t).min_silence_samples ≤
      ({ v with current_sample := v.current_sample + v.window_size_samples } :
        vad_iterator_t).current_sample - tentative_end v from hsil)]
  constructor
  · intro hdur
    rw [if_pos (show ({ v with current_sample :=
        v.current_sample + v.window_size_samples } : vad_iterator_t).min_speech_samples <
        tentative_end v - ({ v with current_sample :=
          v.current_sample + v.window_size_samples } :
          vad_iterator_t).current_speech.start from hdur)]
  · intro hdur
    rw [if_neg (show ¬ ({ v with current_sample :=
        v.current_sample + v.window_size_samples } : vad_iterator_t).min_speech_samples <
        tentative_end v - ({ v with current_sample :=
          v.current_sample + v.window_size_samples } :
          vad_iterator_t).current_speech.start from hdur)]
    exact ⟨rfl, htr, rfl⟩

/-- C7: a successfully constructed engine has `context_samples = 64`
exactly at 16000 Hz and `32` exactly at 8000 Hz (no other rate
constructs), and no later operation (`reset`, `vad_predict`, `process`)
ever rewrites the field. -/
theorem context_samples_by_rate_and_immutable (b : Bool)
    (sr ms : Int) (thr : Rat) (sil pad sp : Int) (mx : Option Rat)
    {v : vad_iterator_t}
    (h : vad_iterator_init b sr ms thr sil pad sp mx = some v) :
    ((v.sample_rate = 16000 ∧ v.context_samples = 64) ∨
      (v.sample_rate = 8000 ∧ v.context_samples = 32)) ∧
    (∀ probFn L,
      (vad_iterator_process v probFn L).context_samples = v.context_samples) ∧
    (∀ p, (vad_predict v p).context_samples = v.context_samples) ∧
    (vad_iterator_reset_states v).context_samples = v.context_samples := by
  refine ⟨?_, fun probFn L => vad_iterator_process_context v probFn L,
    fun p => vad_predict_context v p, rfl⟩
  by_cases hsr16 : sr = 16000
  · subst hsr16
    rw [vad_iterator_init, if_neg (by simp), if_neg (by simp)] at h
    have hv := Option.some.inj h
    subst hv
    left
    exact ⟨rfl, by norm_num⟩
  · by_cases hsr8 : sr = 8000
    · subst hsr8
      by_cases hb : b = true
      · rw [vad_iterator_init, if_pos ⟨hb, by norm_num⟩] at h
        exact Option.noConfusion h
      · have hb' : b = false := by
          rcases Bool.eq_false_or_eq_true b with hx | hx
          · exact absurd hx hb
          · exact hx
        rw [vad_iterator_init, if_neg (fun hc => hb hc.1),
          if_neg (by simp)] at h
        have hv := Option.some.inj h
        subst hv
        right
        exact ⟨rfl, by norm_num⟩
    · by_cases hb : b = true
      · rw [vad_iterator_init, if_pos ⟨hb, hsr16⟩] at h
        exact Option.noConfusion h
      · have hb' : b = false := by
          rcases Bool.eq_false_or_eq_true b with hx | hx
          · exact absurd hx hb
          · exact hx
        rw [vad_iterator_init, if_neg (fun hc => hb hc.1),
          if_pos ⟨hb', hsr16, hsr8⟩] at h
        exact Option.noConfusion h

/- Two successful constructions differing only in `speech_pad_ms` (with an
infinite `max_speech_s`) yield states differing only in the
`speech_pad_samples` field. -/
theorem init_pad_eq (b : Bool) (sr ms : Int) (thr : Rat)
    (sil pad1 pad2 sp : Int) {v1 v2 : vad_iterator_t}
    (h1 : vad_iterator_init b sr ms thr sil pad1 sp none = some v1)
    (h2 : vad_iterator_init b sr ms thr sil pad2 sp none = some v2) :
    v2 = { v1 with speech_pad_samples := sr / 1000 * pad2 } := by
  by_cases hc1 : b = true ∧ sr ≠ 16000
  · rw [vad_iterator_init, if_pos hc1] at h1
    exact Option.noConfusion h1
  · by_cases hc2 : b = false ∧ sr ≠ 16000 ∧ sr ≠ 8000
    · rw [vad_iterator_init, if_neg hc1, if_pos hc2] at h1
      exact Option.noConfusion h1
    · rw [vad_iterator_init, if_neg hc1, if_neg hc2] at h1
      rw [vad_iterator_init, if_neg hc1, if_neg hc2] at h2
      have e1 := Option.some.inj h1
      have e2 := Option.some.inj h2
      subst e1
      subst e2
      rfl

/-- C8: `speech_pad_samples` is computed at construction but never applied
to emitted boundaries: two runs over the same probability stream whose
constructions differ only in `speech_pad_ms` (with `max_speech_s`
infinite, so the derived duration cap agrees) emit identical segment
lists. -/
theorem speech_pad_not_applied (b : Bool) (sr ms : Int) (thr : Rat)
    (sil pad1 pad2 sp : Int) (probFn : Nat → Rat) (L : Nat)
    {v1 v2 : vad_iterator_t}
    (h1 : vad_iterator_init b sr ms thr sil pad1 sp none = some v1)
    (h2 : vad_iterator_init b sr ms thr sil pad2 sp none = some v2) :
    (vad_iterator_process v1 probFn L).speeches =
      (vad_iterator_process v2 probFn L).speeches := by
  rw [init_pad_eq b sr ms thr sil pad1 pad2 sp h1 h2,
    vad_iterator_process_pad v1 (sr / 1000 * pad2) probFn L]

theorem ratHalf_eq_half : ratHalf = 1/2 := by
  unfold ratHalf
  rw [Rat.mkRat_eq_div]
  norm_num

/-- C2 counterexample: at 16 kHz / 512-sample windows with
`max_speech_s = 0.1` (duration cap 1088 samples) and probability 1 at
every window — at or above threshold throughout — the cap is exceeded from
step 3 on (1536 > 1088), yet no segment has been emitted at or before that
step (nor by step 4); the candidate stays open until the end-of-stream
flush of a 2048-sample run, which emits the single segment [0, 2048).
This refutes the claim that a forced boundary is emitted at or before the
step at which `max_speech_samples` is exceeded. -/
theorem max_speech_cap_unreachable_counterexample :
    (vad_iterator_init false 16000 32 ratHalf 100 0 250 (some (1/10)) =
      some maxDemoVad ∧
    max_speech_exceeded
      ((vad_predict_steps (fun _ => 1) 0 3
          (vad_iterator_reset_states maxDemoVad)).current_sample -
        (vad_predict_steps (fun _ => 1) 0 3
          (vad_iterator_reset_states maxDemoVad)).current_speech.start)
      maxDemoVad.max_speech_samples = true ∧
    (vad_predict_steps (fun _ => 1) 0 3
      (vad_iterator_reset_states maxDemoVad)).speeches = [] ∧
    (vad_predict_steps (fun _ => 1) 0 4
      (vad_iterator_reset_states maxDemoVad)).speeches = [] ∧
    (vad_iterator_process maxDemoVad (fun _ => 1) 2048).speeches =
      [⟨0, 2048⟩]) ∧
    (∀ i : Nat, maxDemoVad.threshold ≤ (fun _ => (1 : Rat)) i) :=
  ⟨⟨by
      rw [vad_iterator_init, if_neg (by simp), if_neg (by simp)]
      norm_num [maxDemoVad, Option.map_some'],
    by decide, by decide, by decide, by decide⟩,
   fun _ => by show maxDemoVad.threshold ≤ (1 : Rat); decide⟩

/-- Witness for C1 at a concrete run: 4 all-speech windows of 512 samples. -/
theorem vad_segments_wellformed_witness :
    0 < demoVad.window_size_samples ∧
    ((∀ s ∈ (vad_iterator_process demoVad (fun _ => 1) 2048).speeches,
        s.start < s.«end») ∧
      List.Pairwise (fun a b => a.start ≤ b.start)
        (vad_iterator_process demoVad (fun _ => 1) 2048).speeches ∧
      List.Pairwise (fun a b => a.«end» ≤ b.start)
        (vad_iterator_process demoVad (fun _ => 1) 2048).speeches) :=
  ⟨by decide, vad_segments_wellformed demoVad (fun _ => 1) 2048 (by decide)
    (fun i => ⟨by norm_num, by norm_num⟩)⟩

/-- Witness for the amended C2 at a concrete run. -/
theorem sustained_speech_no_forced_boundary_witness :
    (0 < demoVad.window_size_samples ∧
      (∀ i : Nat, demoVad.threshold ≤ (fun _ => (1 : Rat)) i) ∧
      demoVad.window_size_samples.toNat ≤ 2048) ∧
    ((vad_predict_steps (fun _ => 1) 0 (2048 / demoVad.window_size_samples.toNat)
        (vad_iterator_reset_states demoVad)).speeches = [] ∧
      (vad_iterator_process demoVad (fun _ => 1) 2048).speeches = [⟨0, 2048⟩]) :=
  ⟨⟨by decide, fun _ => by show demoVad.threshold ≤ (1 : Rat); decide, by decide⟩,
    sustained_speech_no_forced_boundary demoVad (fun _ => 1) 2048 (by decide)
      (fun _ => by show demoVad.threshold ≤ (1 : Rat); decide) (by decide)⟩

/-- Witness for C3 at a concrete silence step that pushes the candidate. -/
theorem silence_close_push_or_keep_witness :
    (silenceDemoVad.triggered = true ∧
      (0 : Rat) < silenceDemoVad.threshold - 15/100 ∧
      max_speech_exceeded
        (silenceDemoVad.current_sample + silenceDemoVad.window_size_samples -
          silenceDemoVad.current_speech.start)
        silenceDemoVad.max_speech_samples = false ∧
      silenceDemoVad.min_silence_samples ≤
        silenceDemoVad.current_sample + silenceDemoVad.window_size_samples -
          tentative_end silenceDemoVad) ∧
    (silenceDemoVad.min_speech_samples <
        tentative_end silenceDemoVad - silenceDemoVad.current_speech.start →
      vad_predict silenceDemoVad 0 = { silenceDemoVad with
        current_sample := silenceDemoVad.current_sample +
          silenceDemoVad.window_size_samples
        speeches := silenceDemoVad.speeches ++
          [⟨silenceDemoVad.current_speech.start, tentative_end silenceDemoVad⟩]
        current_speech := ⟨-1, -1⟩
        prev_end := 0
        next_start := 0
        temp_end := 0
        triggered := false }) := by
  have h := silence_close_push_or_keep silenceDemoVad 0
    (by decide) (by norm_num [silenceDemoVad, demoVad, ratHalf_eq_half])
    (by decide) (by decide)
  refine ⟨⟨by decide,
    by norm_num [silenceDemoVad, demoVad, ratHalf_eq_half],
    by decide, by decide⟩, h.1⟩

/-- Witness for C4: 8 all-speech windows (4096 samples at least
`min_speech_samples = 4000`). -/
theorem all_speech_single_flush_segment_witness :
    (0 < demoVad.window_size_samples ∧ 1 ≤ 8 ∧
      (∀ i : Nat, demoVad.threshold ≤ (fun _ => (1 : Rat)) i) ∧
      demoVad.min_speech_samples ≤ (8 : Int) * demoVad.window_size_samples) ∧
    ((vad_iterator_process demoVad (fun _ => 1)
        (8 * demoVad.window_size_samples.toNat)).speeches =
      [⟨0, (8 : Int) * demoVad.window_size_samples⟩] ∧
      (vad_predict_steps (fun _ => 1) 0 8
        (vad_iterator_reset_states demoVad)).speeches = []) :=
  ⟨⟨by decide, by norm_num, fun _ => by show demoVad.threshold ≤ (1 : Rat); decide,
      by decide⟩,
    all_speech_single_flush_segment demoVad (fun _ => 1) 8 (by decide)
      (by norm_num) (fun _ => by show demoVad.threshold ≤ (1 : Rat); decide)
      (by decide)⟩

/-- Witness for C5 at a concrete length with a trailing partial window
(1000 = 512 + 488 dropped samples). -/
theorem process_steps_count_and_tail_drop_witness :
    0 < demoVad.window_size_samples ∧
    (vad_iterator_process demoVad (fun _ => 1) 1000 =
      vad_flush
        (vad_predict_steps (fun _ => 1) 0
          (1000 / demoVad.window_size_samples.toNat)
          (vad_iterator_reset_states demoVad)) 1000 ∧
    ∀ probFn' : Nat → Rat,
      (∀ k, k < 1000 / demoVad.window_size_samples.toNat →
        (fun _ => (1 : Rat)) k = probFn' k) →
      vad_iterator_process demoVad (fun _ => 1) 1000 =
        vad_iterator_process demoVad probFn' 1000) :=
  ⟨by decide,
    process_steps_count_and_tail_drop demoVad (fun _ => 1) 1000 (by decide)⟩

/-- Witness for C6 on a concrete zero-window engine. -/
theorem zero_window_process_noop_witness :
    zeroWinVad.window_size_samples = 0 ∧
    (vad_iterator_process zeroWinVad (fun _ => 1) 777 = zeroWinVad ∧
      (vad_iterator_process zeroWinVad (fun _ => 1) 777).speeches =
        zeroWinVad.speeches) :=
  ⟨by decide, zero_window_process_noop zeroWinVad (fun _ => 1) 777 (by decide)⟩

/-- Witness for C7 on a concrete 8 kHz construction. -/
theorem context_samples_by_rate_and_immutable_witness :
    vad_iterator_init false 8000 32 ratHalf 100 30 250 none = some demo8kVad ∧
    (((demo8kVad.sample_rate = 16000 ∧ demo8kVad.context_samples = 64) ∨
      (demo8kVad.sample_rate = 8000 ∧ demo8kVad.context_samples = 32)) ∧
    (∀ probFn L, (vad_iterator_process demo8kVad probFn L).context_samples =
      demo8kVad.context_samples) ∧
    (∀ p, (vad_predict demo8kVad p).context_samples =
      demo8kVad.context_samples) ∧
    (vad_iterator_reset_states demo8kVad).context_samples =
      demo8kVad.context_samples) :=
  ⟨by decide,
    context_samples_by_rate_and_immutable false 8000 32 ratHalf 100 30 250 none
      (by decide)⟩

/-- Witness for C8 on two concrete constructions differing only in
`speech_pad_ms` (30 versus 0). -/
theorem speech_pad_not_applied_witness :
    (vad_iterator_init false 16000 32 ratHalf 100 30 250 none = some demoVad ∧
      vad_iterator_init false 16000 32 ratHalf 100 0 250 none =
        some { demoVad with speech_pad_samples := 0 }) ∧
    (vad_iterator_process demoVad (fun _ => 1) 2048).speeches =
      (vad_iterator_process { demoVad with speech_pad_samples := 0 }
        (fun _ => 1) 2048).speeches :=
  ⟨⟨by decide, by decide⟩,
    speech_pad_not_applied false 16000 32 ratHalf 100 30 0 250
      (fun _ => 1) 2048 (by decide) (by decide)⟩

/-- Witness for C9 after two concrete steps. -/
theorem triggered_iff_candidate_open_witness :
    0 < demoVad.window_size_samples ∧
    ((vad_predict_steps (fun _ => 1) 0 2
        (vad_iterator_reset_states demoVad)).triggered = true ↔
      0 ≤ (vad_predict_steps (fun _ => 1) 0 2
        (vad_iterator_reset_states demoVad)).current_speech.start) :=
  ⟨by decide, triggered_iff_candidate_open demoVad (fun _ => 1) 2 (by decide)⟩

/-- Witness for C10 at a concrete run. -/
theorem vad_segments_within_input_witness :
    0 < demoVad.window_size_samples ∧
    ∀ s ∈ (vad_iterator_process demoVad (fun _ => 1) 2048).speeches,
      0 ≤ s.start ∧ demoVad.window_size_samples ∣ s.start ∧
        s.«end» ≤ (2048 : Int) :=
  ⟨by decide, vad_segments_within_input demoVad (fun _ => 1) 2048 (by decide)⟩
